import Mathlib

/-!
Verification of the aiida-phonopy plugin sources.

Shallow embedding of:
  * `aiida_phonopy/calcs/base.py` — `BasePhonopyCalculation.prepare_for_submission`
  * `aiida_phonopy/workchains/phonon.py` — the `PhononPhonopy` workchain:
    its outline and the step methods `check_settings`, `set_unitcell`,
    `create_force_sets`, `create_phonopy_builder`.

AiiDA node types whose internals this repository never inspects
(structures, force-constants data, NAC data, band paths, option dicts) are
embedded as abstract stand-in types carrying an identifier; the plugin only
moves them between the context, the inputs and the outputs.
Numeric values (displacement distance, symmetry tolerance, matrix entries)
are embedded as rationals: the Python code only passes them through
(`float(x)`, `astype(float)`, `tolist()`), it performs no rounding
arithmetic, so the embedding is exact.
-/

namespace AiidaPhonopy

/-- Stand-in for an AiiDA `StructureData` node (contents never inspected). -/
structure PhStructure where
  id : Nat
deriving DecidableEq, Repr

/-- Stand-in for the `optimized_structure_data` node of the optimize workchain. -/
structure OptData where
  id : Nat
deriving DecidableEq, Repr

/-- Stand-in for a phonopy displacement dataset (`phonon.displacement_dataset`). -/
structure DataSets where
  id : Nat
deriving DecidableEq, Repr

/-- Stand-in for a `ForceConstantsData` node. -/
structure FCData where
  id : Nat
deriving DecidableEq, Repr

/-- Stand-in for a NAC parameters data node. -/
structure NacData where
  id : Nat
deriving DecidableEq, Repr

/-- Stand-in for the band-paths data produced by `get_path_using_seekpath`. -/
structure BandsData where
  id : Nat
deriving DecidableEq, Repr

/-- Stand-in for the remote-phonopy `options` `ParameterData` dict. -/
structure OptionsData where
  id : Nat
deriving DecidableEq, Repr

/-- Python exceptions raised by the embedded code. -/
inductive PyError where
  | runtimeError (msg : String)
  | typeError (msg : String)
  | valueError (msg : String)
deriving DecidableEq, Repr

/-! ## `aiida_phonopy/calcs/base.py` — `BasePhonopyCalculation`

`prepare_for_submission` first calls the abstract hook
`_create_additional_files(folder)` (raising `NotImplementedError` in this
class; subclasses fill `_internal_retrieve_list`, `_calculation_cmd` and
`_additional_cmd_params`).  The lists the hook produced are therefore taken
as explicit inputs of the embedded function. -/

/-- Inputs of `BasePhonopyCalculation.prepare_for_submission`: the relevant
input nodes and settings attributes, plus the three lists populated by the
subclass hook `_create_additional_files`. -/
structure PrepInputs where
  /-- `self.inputs.fc_only` -/
  fc_only : Bool
  /-- whether `'nac_params' in self.inputs` -/
  has_nac_params : Bool
  /-- whether `'primitive' in self.inputs` -/
  has_primitive : Bool
  /-- the keys of `self.inputs.settings.attributes` -/
  settings_attrs : List String
  /-- `self._calculation_cmd` as left by `_create_additional_files` -/
  calculation_cmd : List (List String)
  /-- `self._additional_cmd_params` as left by `_create_additional_files` -/
  additional_cmd_params : List (List String)
  /-- `self._internal_retrieve_list` as left by `_create_additional_files` -/
  internal_retrieve_list : List String
  /-- `self.options.output_filename` -/
  output_filename : String
deriving Repr

/-- One entry of `calcinfo.codes_info` (an AiiDA `CodeInfo`). -/
structure CodeInfo where
  cmdline_params : List String
  stdout_name : String
  withmpi : Bool
deriving DecidableEq, Repr

/-- The AiiDA `CalcInfo` datastructure populated by `prepare_for_submission`. -/
structure CalcInfo where
  local_copy_list : List String
  remote_copy_list : List String
  retrieve_list : List String
  codes_info : List CodeInfo
deriving DecidableEq, Repr

/-- Result of the embedded `prepare_for_submission`: the names of the files
written into the job folder, and the returned `CalcInfo`. -/
structure PrepResult where
  written_files : List String
  calcinfo : CalcInfo
deriving DecidableEq, Repr

/-- `BasePhonopyCalculation._INPUT_NAC` -/
def INPUT_NAC : String := "BORN"

/-- The guard of the BORN/NAC branch in `prepare_for_submission`:
`not self.inputs.fc_only and 'nac_params' in self.inputs and
'primitive' in self.inputs and
'symmetry_tolerance' in self.inputs.settings.attributes`. -/
def nacCondition (inp : PrepInputs) : Bool :=
  !inp.fc_only && inp.has_nac_params && inp.has_primitive
    && inp.settings_attrs.contains "symmetry_tolerance"

/-- The state of `self._additional_cmd_params` after the BORN branch:
when the NAC condition holds, `'--nac'` is appended to every list. -/
def finalAdditionalParams (inp : PrepInputs) : List (List String) :=
  if nacCondition inp then
    inp.additional_cmd_params.map (fun params => params ++ ["--nac"])
  else
    inp.additional_cmd_params

/-- Embedding of `BasePhonopyCalculation.prepare_for_submission` (the part
after `_create_additional_files`, whose output is in `inp`): writes the BORN
file and appends `'--nac'` when `nacCondition` holds, then assembles the
`CalcInfo` with one `CodeInfo` per `zip`-pair of `_calculation_cmd` and
`_additional_cmd_params`. -/
def prepare_for_submission (inp : PrepInputs) : PrepResult :=
  let written := if nacCondition inp then [INPUT_NAC] else []
  let addl := finalAdditionalParams inp
  let codes := (inp.calculation_cmd.zip addl).enum.map
    (fun p =>
      { cmdline_params := p.2.1 ++ p.2.2
        stdout_name := inp.output_filename ++ toString (p.1 + 1)
        withmpi := false })
  { written_files := written
    calcinfo :=
      { local_copy_list := []
        remote_copy_list := []
        retrieve_list := inp.internal_retrieve_list
        codes_info := codes } }

/-! ## `aiida_phonopy/workchains/phonon.py` — the `PhononPhonopy` outline

The `spec.outline(...)` call declares the state machine run by the AiiDA
engine: a sequence of step methods with `if_(cond)(...).else_(...)`
branches.  The four conditions `use_optimize`, `is_nac`, `run_phonopy` and
`remote_phonopy` each return the corresponding workchain input. -/

/-- The step methods of `PhononPhonopy` named in its outline. -/
inductive Step where
  | check_settings
  | optimize
  | set_unitcell
  | create_displacements
  | run_force_and_nac_calculations
  | create_force_sets
  | create_nac_params
  | set_default_outputs
  | prepare_phonopy_inputs
  | create_phonopy_builder
  | run_phonopy_remote
  | collect_data
  | run_phonopy_in_workchain
deriving DecidableEq, Repr

/-- The outline conditions (`if_(cls.…)` guards). -/
inductive Cond where
  | use_optimize
  | is_nac
  | run_phonopy
  | remote_phonopy
deriving DecidableEq, Repr

/-- The boolean workchain inputs read by the outline conditions. -/
structure OutlineInputs where
  optimize : Bool
  is_nac : Bool
  run_phonopy : Bool
  remote_phonopy : Bool
deriving DecidableEq, Repr

/-- `use_optimize` / `is_nac` / `run_phonopy` / `remote_phonopy` each return
the workchain input of the same name. -/
def evalCond (inp : OutlineInputs) : Cond → Bool
  | .use_optimize => inp.optimize
  | .is_nac => inp.is_nac
  | .run_phonopy => inp.run_phonopy
  | .remote_phonopy => inp.remote_phonopy

/-- One item of a `spec.outline` argument list: a plain step or an
`if_(cond)(then…).else_(else…)` construct. -/
inductive OutlineItem where
  | step (s : Step)
  | branch (c : Cond) (thenItems elseItems : List OutlineItem)

/-- The outline of `PhononPhonopy.define`, verbatim from the source. -/
def phononOutline : List OutlineItem :=
  [ .step .check_settings,
    .branch .use_optimize [.step .optimize] [],
    .step .set_unitcell,
    .step .create_displacements,
    .step .run_force_and_nac_calculations,
    .step .create_force_sets,
    .branch .is_nac [.step .create_nac_params] [],
    .step .set_default_outputs,
    .step .prepare_phonopy_inputs,
    .branch .run_phonopy
      [ .branch .remote_phonopy
          [ .step .create_phonopy_builder,
            .step .run_phonopy_remote,
            .step .collect_data ]
          [ .step .run_phonopy_in_workchain ] ]
      [] ]

mutual

/-- The step sequence the engine executes for one outline item, given the
boolean inputs (the outline conditions read only the inputs, which do not
change during a run). -/
def execItem (inp : OutlineInputs) : OutlineItem → List Step
  | .step s => [s]
  | .branch c thenItems elseItems =>
      if evalCond inp c then execItems inp thenItems else execItems inp elseItems

/-- The step sequence the engine executes for an outline item list. -/
def execItems (inp : OutlineInputs) : List OutlineItem → List Step
  | [] => []
  | item :: rest => execItem inp item ++ execItems inp rest

end

/-- The step sequence of one `PhononPhonopy` run, as a function of the
boolean inputs. -/
def executedSteps (inp : OutlineInputs) : List Step :=
  execItems inp phononOutline

/-! ## numpy fragment used by `check_settings`

A numpy array is embedded by its dtype class (integer or not), its shape,
and its flat (`ravel`-order) data.  Entries are rationals; an integer-dtype
array has integer entries. -/

/-- Embedding of a numpy array: dtype class, shape, flat data. -/
structure NpArray where
  /-- whether `np.issubdtype(a.dtype, np.integer)` holds -/
  isInt : Bool
  shape : List Nat
  /-- the entries in `ravel` (row-major) order -/
  data : List ℚ
deriving DecidableEq, Repr

/-- The flat data of the `n × n` matrix `np.diag(v)` of a vector `v`. -/
def diagFlat (v : List ℚ) : List ℚ :=
  (List.range (v.length * v.length)).map
    (fun k => if k / v.length = k % v.length then v.getD (k / v.length) 0 else 0)

/-- `np.diag`: a 1-D array of length `n` yields its `n × n` diagonal matrix;
a 2-D array yields its diagonal vector; any other rank raises `ValueError`. -/
def npDiag (a : NpArray) : Except PyError NpArray :=
  match a.shape with
  | [_] => .ok { isInt := a.isInt, shape := [a.data.length, a.data.length],
                 data := diagFlat a.data }
  | [r, c] => .ok { isInt := a.isInt, shape := [min r c],
                    data := (List.range (min r c)).map (fun i => a.data.getD (i * c + i) 0) }
  | _ => .error (.valueError "Input must be 1- or 2-d.")

/-- `np.eye(n)`: the float `n × n` identity matrix. -/
def npEye (n : Nat) : NpArray :=
  { isInt := false, shape := [n, n],
    data := (List.range (n * n)).map (fun k => if k / n = k % n then 1 else 0) }

/-- `a.astype(float)`: same shape and data, float dtype. -/
def astypeFloat (a : NpArray) : NpArray :=
  { a with isInt := false }

/-! ## `PhononPhonopy.check_settings` -/

/-- A value of the `phonon_settings` Python dict built by `check_settings`:
a numpy-derived nested list (kept as the array it came from via `tolist`,
which is injective on arrays), a plain list of integers (the `mesh`
default), a number, or some other user-supplied value. -/
inductive SettingVal where
  | arr (a : NpArray)
  | intList (xs : List Int)
  | num (q : ℚ)
  | other (id : Nat)
deriving DecidableEq, Repr

/-- A Python dict with string keys, in insertion order. -/
abbrev PyDict (α : Type) : Type := List (String × α)

/-- Dict lookup (`d[k]`, `k in d`). -/
def dictGet {α : Type} (d : PyDict α) (k : String) : Option α :=
  (d.find? (fun p => p.1 = k)).map (fun p => p.2)

/-- Dict assignment `d[k] = v`: replaces the value in place when the key
exists, otherwise appends the new pair. -/
def dictSet {α : Type} (d : PyDict α) (k : String) (v : α) : PyDict α :=
  if (dictGet d k).isSome then
    d.map (fun p => if p.1 = k then (k, v) else p)
  else
    d ++ [(k, v)]

/-- The settings dict type used by the workchain. -/
abbrev SettingsDict : Type := PyDict SettingVal

/-- The `PhononPhonopy` inputs read by its step methods.  `structure` is an
abstract node; `cell_matrices` is an `ArrayData` embedded as its named
arrays; optional inputs are `Option`s. -/
structure WcInputs where
  structure' : PhStructure
  cell_matrices : PyDict NpArray
  code_string : Option String
  options : Option OptionsData
  phonon_settings : Option SettingsDict
  is_nac : Bool
  optimize : Bool
  pressure : ℚ
  distance : ℚ
  symmetry_tolerance : ℚ
  run_phonopy : Bool
  remote_phonopy : Bool
deriving Repr

/-- The supercell-matrix normalization of `check_settings`:
`smat = np.diag(dim) if len(dim.ravel()) == 3 else np.array(dim)`
(the `np.array` copy keeps dtype, shape and data). -/
def smatOf (dim : NpArray) : Except PyError NpArray :=
  if dim.data.length = 3 then npDiag dim else .ok dim

/-- Whether a remote phonopy run is requested while `code_string` or
`options` is missing (the second `RuntimeError` guard of `check_settings`). -/
def remoteInputsMissing (inp : WcInputs) : Bool :=
  inp.run_phonopy && inp.remote_phonopy &&
    (inp.code_string.isNone || inp.options.isNone)

/-- The primitive matrix used by `check_settings`: the `primitive_matrix`
array of `cell_matrices` when present, `np.eye(3)` otherwise. -/
def pmatOf (inp : WcInputs) : NpArray :=
  match dictGet inp.cell_matrices "primitive_matrix" with
  | some p => p
  | none => npEye 3

/-- The `phonon_settings` dict after the two matrix assignments of
`check_settings` (`supercell_matrix`, then `primitive_matrix`), starting
from the user-supplied `phonon_settings` dict (empty when absent). -/
def settingsWithMats (inp : WcInputs) (smat : NpArray) : SettingsDict :=
  dictSet (dictSet (inp.phonon_settings.getD []) "supercell_matrix" (.arr smat))
    "primitive_matrix" (.arr (astypeFloat (pmatOf inp)))

/-- The dict after the `mesh` default: `[20, 20, 20]` is inserted when
`'mesh' not in phonon_settings_dict` at this point. -/
def settingsWithMesh (inp : WcInputs) (smat : NpArray) : SettingsDict :=
  if (dictGet (settingsWithMats inp smat) "mesh").isSome then
    settingsWithMats inp smat
  else
    dictSet (settingsWithMats inp smat) "mesh" (.intList [20, 20, 20])

/-- The `phonon_settings` dict `check_settings` builds on the non-raising
path, given the already-normalized integer supercell matrix `smat`: the
matrix assignments, the `mesh` default, then `distance` and
`symmetry_tolerance` as floats of the corresponding inputs. -/
def normalizedSettings (inp : WcInputs) (smat : NpArray) : SettingsDict :=
  dictSet (dictSet (settingsWithMesh inp smat) "distance" (.num inp.distance))
    "symmetry_tolerance" (.num inp.symmetry_tolerance)

/-- Embedding of `PhononPhonopy.check_settings`: validates and normalizes
the inputs into the `phonon_settings` dict stored in the context, raising
`RuntimeError` when `supercell_matrix` is missing or when a remote phonopy
run lacks `code_string`/`options`, and `TypeError` when the supercell
matrix is not of integer dtype (exceptions raised by `np.diag` propagate).
In the source the dict is built between the dtype check and the
`code_string`/`options` guard; that construction is total and pure, so it
is factored into `normalizedSettings` on the success branch. -/
def check_settings (inp : WcInputs) : Except PyError SettingsDict :=
  match dictGet inp.cell_matrices "supercell_matrix" with
  | none => .error (.runtimeError "supercell_matrix is not found in cell_matrices.")
  | some dim =>
    match smatOf dim with
    | .error e => .error e
    | .ok smat =>
      if smat.isInt = false then
        .error (.typeError "supercell_matrix is not integer matrix.")
      else if remoteInputsMissing inp then
        .error (.runtimeError "code_string and options have to be specified.")
      else
        .ok (normalizedSettings inp smat)

/-! ## `PhononPhonopy.set_unitcell` -/

/-- The outputs of the `OptimizeStructure` sub-workchain that
`set_unitcell` reads from `self.ctx.optimized.out`. -/
structure OptimizedOut where
  optimized_structure : PhStructure
  optimized_structure_data : OptData
deriving DecidableEq, Repr

/-- Embedding of `PhononPhonopy.set_unitcell`: given the `structure` input
and the optional `optimized` context entry, returns the context's
`final_structure` and the list of `(link, node-id)` outputs emitted via
`self.out`.  (Output nodes are identified by their stand-in ids.) -/
def set_unitcell (structure' : PhStructure) (optimized : Option OptimizedOut) :
    PhStructure × List (String × Nat) :=
  match optimized with
  | some o => (o.optimized_structure, [("optimized_data", o.optimized_structure_data.id)])
  | none => (structure', [])

/-! ## `PhononPhonopy.create_force_sets` -/

/-- The outputs dict of one per-displacement force calculation
(`self.ctx['structure_i'].get_outputs_dict()`), restricted to the only node
the workchain reads: the optional `output_forces` `ArrayData`, embedded as
its named arrays. -/
structure ForceCalcOutputs where
  output_forces : Option (PyDict NpArray)
deriving Repr

/-- The force array `create_force_sets` can retrieve from one calculation:
present exactly when `'output_forces' in out_dict` and `'final'` is among
its array names. -/
def finalForce (c : ForceCalcOutputs) : Option NpArray :=
  c.output_forces.bind (fun arrs => dictGet arrs "final")

/-- The context read by `create_force_sets`: the displacement dataset
(`number_of_displacements` and `data_sets`) and the per-displacement
calculations `structure_0 … structure_(n-1)` keyed by index. -/
structure ForceSetsCtx where
  number_of_displacements : Nat
  data_sets : DataSets
  calcs : Nat → ForceCalcOutputs

/-- The `ForceSetsData` node built by `create_force_sets`. -/
structure ForceSetsData where
  data_sets : DataSets
  forces : List NpArray
deriving DecidableEq, Repr

/-- The `forces` list accumulated by `create_force_sets`: the retrievable
`'final'` arrays of calculations `0 … n-1`, in index order. -/
def collectedForces (ctx : ForceSetsCtx) : List NpArray :=
  (List.range ctx.number_of_displacements).filterMap (fun i => finalForce (ctx.calcs i))

/-- Embedding of `PhononPhonopy.create_force_sets`: collects the forces and
raises `RuntimeError` when their number differs from the number of
displacements; otherwise builds the `ForceSetsData` from them. -/
def create_force_sets (ctx : ForceSetsCtx) : Except PyError ForceSetsData :=
  if (collectedForces ctx).length ≠ ctx.number_of_displacements then
    .error (.runtimeError "Forces could not be retrieved.")
  else
    .ok { data_sets := ctx.data_sets, forces := collectedForces ctx }

/-! ## `PhononPhonopy.create_phonopy_builder` -/

/-- The context entries read by `create_phonopy_builder`. -/
structure BuilderCtx where
  final_structure : PhStructure
  phonon_settings : SettingsDict
  force_constants : Option FCData
  force_sets : Option ForceSetsData
  nac_data : Option NacData
  band_paths : Option BandsData
deriving Repr

/-- The process builder populated by `create_phonopy_builder`. -/
structure PhonopyBuilder where
  code_string : String
  structure' : PhStructure
  parameters : SettingsDict
  options : OptionsData
  force_constants : Option FCData
  force_sets : Option ForceSetsData
  nac_data : Option NacData
  bands : Option BandsData
deriving Repr

/-- Embedding of `PhononPhonopy.create_phonopy_builder`: populates the
builder from context and inputs (`force_constants` preferred over
`force_sets` by the `if/elif`), then raises `RuntimeError` when the context
holds neither `force_sets` nor `force_constants`; on success the builder is
stored in the context. -/
def create_phonopy_builder (code_string : String) (options : OptionsData)
    (ctx : BuilderCtx) : Except PyError PhonopyBuilder :=
  let b : PhonopyBuilder :=
    { code_string := code_string
      structure' := ctx.final_structure
      parameters := ctx.phonon_settings
      options := options
      force_constants := ctx.force_constants
      force_sets := if ctx.force_constants.isSome then none else ctx.force_sets
      nac_data := ctx.nac_data
      bands := ctx.band_paths }
  if ctx.force_sets.isNone && ctx.force_constants.isNone then
    .error (.runtimeError "Force sets and force constants were not found.")
  else
    .ok b

/-! ## Concrete example inputs (used to instantiate the theorems) -/

/-- A `prepare_for_submission` input satisfying the NAC condition. -/
def prepInputA : PrepInputs :=
  { fc_only := false
    has_nac_params := true
    has_primitive := true
    settings_attrs := ["symmetry_tolerance"]
    calculation_cmd := [["-c", "phonopy.conf"]]
    additional_cmd_params := [[]]
    internal_retrieve_list := ["FORCE_CONSTANTS"]
    output_filename := "phonopy.out" }

/-- A `prepare_for_submission` input with two code invocations. -/
def prepInputB : PrepInputs :=
  { fc_only := true
    has_nac_params := true
    has_primitive := true
    settings_attrs := ["symmetry_tolerance"]
    calculation_cmd := [["-c", "phonopy.conf"], ["-c", "phonopy_dos.conf"]]
    additional_cmd_params := [["--writefc"], []]
    internal_retrieve_list := []
    output_filename := "phonopy.out" }

/-- A benign `PhononPhonopy` input: an integer `supercell_matrix` given as
3 numbers, no `primitive_matrix`, no `phonon_settings`, local defaults. -/
def wcBase : WcInputs :=
  { structure' := ⟨0⟩
    cell_matrices := [("supercell_matrix", { isInt := true, shape := [3], data := [2, 2, 2] })]
    code_string := none
    options := none
    phonon_settings := none
    is_nac := false
    optimize := true
    pressure := 0
    distance := 1 / 100
    symmetry_tolerance := 1 / 100000
    run_phonopy := false
    remote_phonopy := false }

/-- A `PhononPhonopy` input whose `supercell_matrix` is a float 3×3 matrix
(malformed: not of integer dtype), with `run_phonopy` false. -/
def wcFloatSc : WcInputs :=
  { wcBase with
    cell_matrices :=
      [("supercell_matrix",
        { isInt := false, shape := [3, 3], data := [2, 0, 0, 0, 2, 0, 0, 0, 2] })] }

/-- A `PhononPhonopy` input whose `supercell_matrix` is a float vector of
3 numbers (malformed: not of integer dtype). -/
def wcFloatVec : WcInputs :=
  { wcBase with
    cell_matrices :=
      [("supercell_matrix", { isInt := false, shape := [3], data := [2, 2, 2] })] }

/-- A `create_force_sets` context with two displacements, both of whose
calculations expose an `output_forces` node with a `final` array. -/
def fsCtxOk : ForceSetsCtx :=
  { number_of_displacements := 2
    data_sets := ⟨7⟩
    calcs := fun _ =>
      { output_forces := some [("final", { isInt := false, shape := [1, 3], data := [0, 0, 0] })] } }

/-- A `create_phonopy_builder` context holding `force_sets` (and band
paths) but no `force_constants` and no NAC data. -/
def builderCtxOk : BuilderCtx :=
  { final_structure := ⟨1⟩
    phonon_settings := []
    force_constants := none
    force_sets := some { data_sets := ⟨7⟩, forces := [] }
    nac_data := none
    band_paths := some ⟨3⟩ }

/-- The builder `create_phonopy_builder` produces for `builderCtxOk`. -/
def builderOk : PhonopyBuilder :=
  { code_string := "phonopy@localhost"
    structure' := ⟨1⟩
    parameters := []
    options := ⟨9⟩
    force_constants := none
    force_sets := some { data_sets := ⟨7⟩, forces := [] }
    nac_data := none
    bands := some ⟨3⟩ }

/-- The normalized supercell matrix `check_settings` computes for
`wcBase`'s 3-number supercell input. -/
def wcBaseSmat : NpArray :=
  { isInt := true, shape := [3, 3], data := diagFlat [2, 2, 2] }

/-- The steps of the outline in their textual (program) order: the
reference order against which "no later stage runs before an earlier one"
is stated. -/
def stageOrder : List Step :=
  [.check_settings, .optimize, .set_unitcell, .create_displacements,
   .run_force_and_nac_calculations, .create_force_sets, .create_nac_params,
   .set_default_outputs, .prepare_phonopy_inputs, .create_phonopy_builder,
   .run_phonopy_remote, .collect_data, .run_phonopy_in_workchain]

end AiidaPhonopy

namespace AiidaPhonopy

/-! # Theorems -/

/-- The NAC guard holds exactly when `fc_only` is false, `nac_params` and
`primitive` are present, and `symmetry_tolerance` is a settings key. -/
theorem nacCondition_eq_true_iff (inp : PrepInputs) :
    nacCondition inp = true ↔
      (inp.fc_only = false ∧ inp.has_nac_params = true ∧ inp.has_primitive = true ∧
        "symmetry_tolerance" ∈ inp.settings_attrs) := by
  simp [nacCondition, and_assoc]

/-- `finalAdditionalParams` has the length of `_additional_cmd_params`. -/
theorem finalAdditionalParams_length (inp : PrepInputs) :
    (finalAdditionalParams inp).length = inp.additional_cmd_params.length := by
  cases h : nacCondition inp <;> simp [finalAdditionalParams, h]

/-- C1: `prepare_for_submission` writes a BORN file and appends `--nac` to
every code invocation's additional command-line parameters iff `fc_only` is
false, `nac_params` and `primitive` are among the inputs, and
`symmetry_tolerance` is a key of the settings attributes; in every other
case no BORN file is written and no command line contains `--nac`
(for the latter, the lists produced by the subclass hook
`_create_additional_files` are assumed not to contain `--nac` already). -/
theorem prepare_born_nac_iff (inp : PrepInputs)
    (hdef : ∀ l ∈ inp.calculation_cmd, "--nac" ∉ l)
    (hadd : ∀ l ∈ inp.additional_cmd_params, "--nac" ∉ l) :
    ((inp.fc_only = false ∧ inp.has_nac_params = true ∧ inp.has_primitive = true ∧
        "symmetry_tolerance" ∈ inp.settings_attrs) →
      ((prepare_for_submission inp).written_files = [INPUT_NAC] ∧
        finalAdditionalParams inp =
          inp.additional_cmd_params.map (fun params => params ++ ["--nac"]))) ∧
    (¬(inp.fc_only = false ∧ inp.has_nac_params = true ∧ inp.has_primitive = true ∧
        "symmetry_tolerance" ∈ inp.settings_attrs) →
      ((prepare_for_submission inp).written_files = [] ∧
        ∀ ci ∈ (prepare_for_submission inp).calcinfo.codes_info,
          "--nac" ∉ ci.cmdline_params)) := by
  constructor
  · intro hc
    have h : nacCondition inp = true := (nacCondition_eq_true_iff inp).mpr hc
    exact ⟨by simp [prepare_for_submission, h], by simp [finalAdditionalParams, h]⟩
  · intro hn
    have h : nacCondition inp = false := by
      rcases Bool.eq_false_or_eq_true (nacCondition inp) with h | h
      · exact absurd ((nacCondition_eq_true_iff inp).mp h) hn
      · exact h
    refine ⟨by simp [prepare_for_submission, h], ?_⟩
    intro ci hci
    simp only [prepare_for_submission] at hci
    rw [List.mem_map] at hci
    obtain ⟨p, hp, rfl⟩ := hci
    have hz : p.2 ∈ inp.calculation_cmd.zip (finalAdditionalParams inp) :=
      List.snd_mem_of_mem_enum hp
    have h1 := (List.of_mem_zip hz).1
    have h2 := (List.of_mem_zip hz).2
    have hfa : finalAdditionalParams inp = inp.additional_cmd_params := by
      simp [finalAdditionalParams, h]
    rw [hfa] at h2
    simp only [List.mem_append, not_or]
    exact ⟨hdef _ h1, hadd _ h2⟩

/-- Witness for C1 at a concrete input satisfying the NAC condition. -/
theorem prepare_born_nac_iff_witness :
    (prepare_for_submission prepInputA).written_files = [INPUT_NAC] ∧
    finalAdditionalParams prepInputA = [["--nac"]] := by
  have h := (prepare_born_nac_iff prepInputA (by decide) (by decide)).1 (by decide)
  exact ⟨h.1, by rw [h.2]; rfl⟩

/-- C2: in the `PhononPhonopy` outline, when `run_phonopy` and
`remote_phonopy` are both true the steps `create_phonopy_builder`,
`run_phonopy_remote` and `collect_data` execute and
`run_phonopy_in_workchain` does not; when `run_phonopy` is true and
`remote_phonopy` false only `run_phonopy_in_workchain` of the four
executes; when `run_phonopy` is false none of the four executes. -/
theorem outline_phonopy_branching (opt nac run remote : Bool) :
    (run = true ∧ remote = true →
      Step.create_phonopy_builder ∈ executedSteps ⟨opt, nac, run, remote⟩ ∧
      Step.run_phonopy_remote ∈ executedSteps ⟨opt, nac, run, remote⟩ ∧
      Step.collect_data ∈ executedSteps ⟨opt, nac, run, remote⟩ ∧
      Step.run_phonopy_in_workchain ∉ executedSteps ⟨opt, nac, run, remote⟩) ∧
    (run = true ∧ remote = false →
      Step.run_phonopy_in_workchain ∈ executedSteps ⟨opt, nac, run, remote⟩ ∧
      Step.create_phonopy_builder ∉ executedSteps ⟨opt, nac, run, remote⟩ ∧
      Step.run_phonopy_remote ∉ executedSteps ⟨opt, nac, run, remote⟩ ∧
      Step.collect_data ∉ executedSteps ⟨opt, nac, run, remote⟩) ∧
    (run = false →
      Step.create_phonopy_builder ∉ executedSteps ⟨opt, nac, run, remote⟩ ∧
      Step.run_phonopy_remote ∉ executedSteps ⟨opt, nac, run, remote⟩ ∧
      Step.collect_data ∉ executedSteps ⟨opt, nac, run, remote⟩ ∧
      Step.run_phonopy_in_workchain ∉ executedSteps ⟨opt, nac, run, remote⟩) := by
  refine ⟨fun h => ?_, fun h => ?_, fun h => ?_⟩
  · obtain ⟨h1, h2⟩ := h
    subst h1; subst h2
    cases opt <;> cases nac <;> decide
  · obtain ⟨h1, h2⟩ := h
    subst h1; subst h2
    cases opt <;> cases nac <;> decide
  · subst h
    cases opt <;> cases nac <;> cases remote <;> decide

/-- Witness for C2 at the remote run (`run_phonopy = remote_phonopy =
true`) and at the local run (`remote_phonopy = false`). -/
theorem outline_phonopy_branching_witness :
    (Step.run_phonopy_remote ∈ executedSteps ⟨true, false, true, true⟩ ∧
      Step.run_phonopy_in_workchain ∉ executedSteps ⟨true, false, true, true⟩) ∧
    (Step.run_phonopy_in_workchain ∈ executedSteps ⟨true, false, true, false⟩ ∧
      Step.run_phonopy_remote ∉ executedSteps ⟨true, false, true, false⟩) := by
  have h1 := (outline_phonopy_branching true false true true).1 ⟨rfl, rfl⟩
  have h2 := (outline_phonopy_branching true false true false).2.1 ⟨rfl, rfl⟩
  exact ⟨⟨h1.2.1, h1.2.2.2⟩, ⟨h2.1, h2.2.2.1⟩⟩

/-- C3: for every choice of the boolean inputs, the executed step sequence
is a sublist of the outline's textual stage order (so no later stage ever
runs before an earlier one and no stage runs twice); the stages
`check_settings`, `set_unitcell`, `create_displacements`,
`run_force_and_nac_calculations`, `create_force_sets`,
`set_default_outputs` and `prepare_phonopy_inputs` always execute, and the
`optimize` stage executes exactly when the `optimize` input is true. -/
theorem outline_stage_order (opt nac run remote : Bool) :
    List.Sublist (executedSteps ⟨opt, nac, run, remote⟩) stageOrder ∧
    Step.check_settings ∈ executedSteps ⟨opt, nac, run, remote⟩ ∧
    Step.set_unitcell ∈ executedSteps ⟨opt, nac, run, remote⟩ ∧
    Step.create_displacements ∈ executedSteps ⟨opt, nac, run, remote⟩ ∧
    Step.run_force_and_nac_calculations ∈ executedSteps ⟨opt, nac, run, remote⟩ ∧
    Step.create_force_sets ∈ executedSteps ⟨opt, nac, run, remote⟩ ∧
    Step.set_default_outputs ∈ executedSteps ⟨opt, nac, run, remote⟩ ∧
    Step.prepare_phonopy_inputs ∈ executedSteps ⟨opt, nac, run, remote⟩ ∧
    (Step.optimize ∈ executedSteps ⟨opt, nac, run, remote⟩ ↔ opt = true) := by
  cases opt <;> cases nac <;> cases run <;> cases remote <;> decide

/-- C10: the `CalcInfo` returned by `prepare_for_submission` has empty copy
lists, one `CodeInfo` per `zip`-pair of `_calculation_cmd` and
`_additional_cmd_params` (truncated to the shorter), and its `i`-th entry
has `cmdline_params` = `i`-th default parameters ++ `i`-th additional
parameters, `stdout_name` = output filename suffixed with `i + 1`, and
`withmpi = false`. -/
theorem prepare_calcinfo_shape (inp : PrepInputs) :
    (prepare_for_submission inp).calcinfo.local_copy_list = [] ∧
    (prepare_for_submission inp).calcinfo.remote_copy_list = [] ∧
    (prepare_for_submission inp).calcinfo.codes_info.length =
      min inp.calculation_cmd.length inp.additional_cmd_params.length ∧
    ∀ (i : Nat) (h : i < (prepare_for_submission inp).calcinfo.codes_info.length),
      ((prepare_for_submission inp).calcinfo.codes_info.get ⟨i, h⟩).cmdline_params =
        inp.calculation_cmd.getD i [] ++ (finalAdditionalParams inp).getD i [] ∧
      ((prepare_for_submission inp).calcinfo.codes_info.get ⟨i, h⟩).stdout_name =
        inp.output_filename ++ toString (i + 1) ∧
      ((prepare_for_submission inp).calcinfo.codes_info.get ⟨i, h⟩).withmpi = false := by
  refine ⟨rfl, rfl, ?_, ?_⟩
  · simp [prepare_for_submission, List.length_zip, finalAdditionalParams_length]
  · intro i h
    have hlen : i < ((inp.calculation_cmd.zip (finalAdditionalParams inp)).enum).length := by
      simpa [prepare_for_submission] using h
    have hz : i < (inp.calculation_cmd.zip (finalAdditionalParams inp)).length := by
      simpa using hlen
    have hc : i < inp.calculation_cmd.length := by
      rw [List.length_zip] at hz; omega
    have ha : i < (finalAdditionalParams inp).length := by
      rw [List.length_zip] at hz; omega
    have hget : (prepare_for_submission inp).calcinfo.codes_info.get ⟨i, h⟩ =
        { cmdline_params := inp.calculation_cmd[i] ++ (finalAdditionalParams inp)[i]
          stdout_name := inp.output_filename ++ toString (i + 1)
          withmpi := false } := by
      show ((inp.calculation_cmd.zip (finalAdditionalParams inp)).enum.map _).get _ = _
      rw [List.get_eq_getElem, List.getElem_map, List.getElem_enum, List.getElem_zip]
    rw [hget]
    refine ⟨?_, rfl, rfl⟩
    rw [List.getD_eq_getElem inp.calculation_cmd [] hc,
      List.getD_eq_getElem (finalAdditionalParams inp) [] ha]

/-- Witness for C10 at a concrete two-invocation input, instantiated at
index 0. -/
theorem prepare_calcinfo_shape_witness :
    (prepare_for_submission prepInputB).calcinfo.local_copy_list = [] ∧
    (prepare_for_submission prepInputB).calcinfo.codes_info.length = 2 ∧
    ∃ (h : 0 < (prepare_for_submission prepInputB).calcinfo.codes_info.length),
      ((prepare_for_submission prepInputB).calcinfo.codes_info.get ⟨0, h⟩).cmdline_params =
        ["-c", "phonopy.conf", "--writefc"] := by
  have h := prepare_calcinfo_shape prepInputB
  refine ⟨h.1, by rw [h.2.2.1]; rfl, ?_⟩
  refine ⟨by decide, ?_⟩
  rw [(h.2.2.2 0 (by decide)).1]
  decide

/-! ### Python-dict lemmas -/

/-- `dictGet` on a cons cell. -/
theorem dictGet_cons {α : Type} (p : String × α) (d : PyDict α) (k : String) :
    dictGet (p :: d) k = if p.1 = k then some p.2 else dictGet d k := by
  by_cases h : p.1 = k <;> simp [dictGet, List.find?_cons, h]

/-- Looking up the replaced key after the in-place branch of `dictSet`. -/
theorem dictGet_map_replace_self {α : Type} (d : PyDict α) (k : String) (v : α) :
    dictGet (d.map (fun p => if p.1 = k then (k, v) else p)) k =
      if (dictGet d k).isSome then some v else none := by
  induction d with
  | nil => simp [dictGet]
  | cons p d ih =>
    by_cases h : p.1 = k
    · simp [dictGet_cons, h, List.map_cons]
    · simp only [List.map_cons, if_neg h, dictGet_cons, if_neg h]
      exact ih

/-- Looking up another key after the in-place branch of `dictSet`. -/
theorem dictGet_map_replace_ne {α : Type} (d : PyDict α) (k k' : String) (v : α)
    (h : k' ≠ k) :
    dictGet (d.map (fun p => if p.1 = k then (k, v) else p)) k' = dictGet d k' := by
  induction d with
  | nil => simp [dictGet]
  | cons p d ih =>
    by_cases hp : p.1 = k
    · rw [List.map_cons, if_pos hp, dictGet_cons, dictGet_cons, hp]
      rw [if_neg (Ne.symm h), if_neg (Ne.symm h)]
      exact ih
    · rw [List.map_cons, if_neg hp, dictGet_cons, dictGet_cons]
      by_cases hq : p.1 = k'
      · simp [hq]
      · rw [if_neg hq, if_neg hq]
        exact ih

/-- Looking up a key after the appending branch of `dictSet`. -/
theorem dictGet_append_single {α : Type} (d : PyDict α) (k k' : String) (v : α) :
    dictGet (d ++ [(k, v)]) k' =
      if (dictGet d k').isSome then dictGet d k'
      else if k = k' then some v else none := by
  induction d with
  | nil => simp [dictGet_cons, dictGet]
  | cons p d ih =>
    rw [List.cons_append, dictGet_cons, dictGet_cons]
    by_cases hq : p.1 = k'
    · simp [hq]
    · rw [if_neg hq, if_neg hq]
      exact ih

/-- After `d[k] = v`, looking up `k` yields `v`. -/
theorem dictGet_dictSet_self {α : Type} (d : PyDict α) (k : String) (v : α) :
    dictGet (dictSet d k v) k = some v := by
  unfold dictSet
  by_cases h : (dictGet d k).isSome
  · rw [if_pos h, dictGet_map_replace_self, if_pos h]
  · rw [if_neg h, dictGet_append_single, if_neg h, if_pos rfl]

/-- After `d[k] = v`, looking up any other key is unchanged. -/
theorem dictGet_dictSet_ne {α : Type} (d : PyDict α) (k k' : String) (v : α)
    (h : k' ≠ k) : dictGet (dictSet d k v) k' = dictGet d k' := by
  unfold dictSet
  by_cases hs : (dictGet d k).isSome
  · rw [if_pos hs, dictGet_map_replace_ne _ _ _ _ h]
  · rw [if_neg hs, dictGet_append_single]
    by_cases hg : (dictGet d k').isSome
    · rw [if_pos hg]
    · rw [if_neg hg, if_neg (Ne.symm h)]
      exact (Option.not_isSome_iff_eq_none.mp hg).symm

/-! ### `check_settings` helper lemmas -/

/-- `np.diag` and the `np.array` copy both preserve the dtype class. -/
theorem smatOf_isInt (dim smat : NpArray) (h : smatOf dim = .ok smat) :
    smat.isInt = dim.isInt := by
  unfold smatOf npDiag at h
  split at h
  · split at h
    · cases h; rfl
    · cases h; rfl
    · exact Except.noConfusion h
  · cases h; rfl

/-- The only exception the supercell-matrix normalization itself can raise
is `np.diag`'s `ValueError`. -/
theorem smatOf_error_valueError (dim : NpArray) (e : PyError)
    (h : smatOf dim = .error e) : ∃ msg, e = .valueError msg := by
  unfold smatOf npDiag at h
  split at h
  · split at h
    · exact Except.noConfusion h
    · exact Except.noConfusion h
    · cases h
      exact ⟨_, rfl⟩
  · exact Except.noConfusion h

/-- Exhaustive case description of `check_settings`, one implication per
control-flow path of the source. -/
theorem check_settings_cases (inp : WcInputs) :
    (dictGet inp.cell_matrices "supercell_matrix" = none →
      check_settings inp =
        .error (.runtimeError "supercell_matrix is not found in cell_matrices.")) ∧
    (∀ dim e, dictGet inp.cell_matrices "supercell_matrix" = some dim →
      smatOf dim = .error e → check_settings inp = .error e) ∧
    (∀ dim smat, dictGet inp.cell_matrices "supercell_matrix" = some dim →
      smatOf dim = .ok smat → smat.isInt = false →
      check_settings inp = .error (.typeError "supercell_matrix is not integer matrix.")) ∧
    (∀ dim smat, dictGet inp.cell_matrices "supercell_matrix" = some dim →
      smatOf dim = .ok smat → smat.isInt = true → remoteInputsMissing inp = true →
      check_settings inp =
        .error (.runtimeError "code_string and options have to be specified.")) ∧
    (∀ dim smat, dictGet inp.cell_matrices "supercell_matrix" = some dim →
      smatOf dim = .ok smat → smat.isInt = true → remoteInputsMissing inp = false →
      check_settings inp = .ok (normalizedSettings inp smat)) := by
  refine ⟨?_, ?_, ?_, ?_, ?_⟩
  · intro h
    simp [check_settings, h]
  · intro dim e h1 h2
    simp [check_settings, h1, h2]
  · intro dim smat h1 h2 h3
    simp [check_settings, h1, h2, h3]
  · intro dim smat h1 h2 h3 h4
    simp [check_settings, h1, h2, h3, h4]
  · intro dim smat h1 h2 h3 h4
    simp [check_settings, h1, h2, h3, h4]

/-- Inversion: a successful `check_settings` run means the supercell matrix
was found, normalized without exception to an integer matrix, the remote
inputs guard passed, and the result is the normalized settings dict. -/
theorem check_settings_ok_inv (inp : WcInputs) (d : SettingsDict)
    (h : check_settings inp = .ok d) :
    ∃ dim smat, dictGet inp.cell_matrices "supercell_matrix" = some dim ∧
      smatOf dim = .ok smat ∧ smat.isInt = true ∧ remoteInputsMissing inp = false ∧
      d = normalizedSettings inp smat := by
  cases hdim : dictGet inp.cell_matrices "supercell_matrix" with
  | none =>
    rw [(check_settings_cases inp).1 hdim] at h
    exact Except.noConfusion h
  | some dim =>
    cases hs : smatOf dim with
    | error e =>
      rw [(check_settings_cases inp).2.1 dim e hdim hs] at h
      exact Except.noConfusion h
    | ok smat =>
      cases hi : smat.isInt with
      | false =>
        rw [(check_settings_cases inp).2.2.1 dim smat hdim hs hi] at h
        exact Except.noConfusion h
      | true =>
        cases hrem : remoteInputsMissing inp with
        | true =>
          rw [(check_settings_cases inp).2.2.2.1 dim smat hdim hs hi hrem] at h
          exact Except.noConfusion h
        | false =>
          rw [(check_settings_cases inp).2.2.2.2 dim smat hdim hs hi hrem] at h
          injection h with h'
          exact ⟨dim, smat, rfl, hs, hi, rfl, h'.symm⟩

/-- C4 counterexample: with a `supercell_matrix` of float dtype present and
`run_phonopy` false, neither of the claim's two error conditions holds, yet
`check_settings` does not complete — it raises (a `TypeError`). -/
theorem check_settings_claim_counterexample :
    (dictGet wcFloatSc.cell_matrices "supercell_matrix").isSome = true ∧
    wcFloatSc.run_phonopy = false ∧
    check_settings wcFloatSc =
      .error (.typeError "supercell_matrix is not integer matrix.") := by
  refine ⟨rfl, rfl, ?_⟩
  rfl

/-- C4 (amended): `check_settings` raises `RuntimeError` iff
`supercell_matrix` is absent from `cell_matrices`, or the supercell matrix
normalizes without exception to an integer matrix while `run_phonopy` and
`remote_phonopy` are true and `code_string` or `options` is absent;
a present supercell matrix that normalizes to a non-integer matrix raises
`TypeError` instead; and when the matrix normalizes to an integer matrix
and the remote guard passes, `check_settings` completes with the
normalized settings dict. -/
theorem check_settings_runtimeError_iff (inp : WcInputs) :
    ((∃ msg, check_settings inp = .error (.runtimeError msg)) ↔
      (dictGet inp.cell_matrices "supercell_matrix" = none ∨
        ∃ dim smat, dictGet inp.cell_matrices "supercell_matrix" = some dim ∧
          smatOf dim = .ok smat ∧ smat.isInt = true ∧
          remoteInputsMissing inp = true)) ∧
    (∀ dim smat, dictGet inp.cell_matrices "supercell_matrix" = some dim →
      smatOf dim = .ok smat → smat.isInt = false →
      check_settings inp = .error (.typeError "supercell_matrix is not integer matrix.")) ∧
    (∀ dim smat, dictGet inp.cell_matrices "supercell_matrix" = some dim →
      smatOf dim = .ok smat → smat.isInt = true → remoteInputsMissing inp = false →
      check_settings inp = .ok (normalizedSettings inp smat)) := by
  have cs := check_settings_cases inp
  refine ⟨⟨?_, ?_⟩, cs.2.2.1, cs.2.2.2.2⟩
  · rintro ⟨msg, h⟩
    cases hdim : dictGet inp.cell_matrices "supercell_matrix" with
    | none => exact Or.inl rfl
    | some dim =>
      cases hs : smatOf dim with
      | error e =>
        obtain ⟨m2, rfl⟩ := smatOf_error_valueError dim e hs
        rw [cs.2.1 dim _ hdim hs] at h
        exact absurd h (by simp)
      | ok smat =>
        cases hi : smat.isInt with
        | false =>
          rw [cs.2.2.1 dim smat hdim hs hi] at h
          exact absurd h (by simp)
        | true =>
          cases hrem : remoteInputsMissing inp with
          | false =>
            rw [cs.2.2.2.2 dim smat hdim hs hi hrem] at h
            exact Except.noConfusion h
          | true => exact Or.inr ⟨dim, smat, rfl, hs, hi, rfl⟩
  · rintro (h | ⟨dim, smat, hdim, hs, hi, hrem⟩)
    · exact ⟨_, cs.1 h⟩
    · exact ⟨_, cs.2.2.2.1 dim smat hdim hs hi hrem⟩

/-- Witness for the amended C4: the remote-guard `RuntimeError` fires on a
well-formed integer supercell matrix when `run_phonopy` and
`remote_phonopy` are true without `code_string`/`options`, and the benign
input completes. -/
theorem check_settings_runtimeError_iff_witness :
    (∃ msg, check_settings { wcBase with run_phonopy := true, remote_phonopy := true } =
      .error (.runtimeError msg)) ∧
    check_settings wcBase =
      .ok (normalizedSettings wcBase { isInt := true, shape := [3, 3], data := diagFlat [2, 2, 2] }) := by
  constructor
  · exact (check_settings_runtimeError_iff
      { wcBase with run_phonopy := true, remote_phonopy := true }).1.mpr
      (Or.inr ⟨_, _, rfl, rfl, rfl, rfl⟩)
  · exact (check_settings_runtimeError_iff wcBase).2.2 _ _ rfl rfl rfl rfl

/-- C5: when the `supercell_matrix` array is present in `cell_matrices` but
malformed — its entries are not of integer dtype — `check_settings` raises
(in the source a `TypeError`, or `np.diag`'s `ValueError` for arrays of
rank ≥ 3). -/
theorem check_settings_malformed_supercell_errors (inp : WcInputs) (dim : NpArray)
    (hdim : dictGet inp.cell_matrices "supercell_matrix" = some dim)
    (hint : dim.isInt = false) :
    ∃ e, check_settings inp = .error e := by
  cases hs : smatOf dim with
  | error e => exact ⟨e, (check_settings_cases inp).2.1 dim e hdim hs⟩
  | ok smat =>
    have hsi : smat.isInt = false := by rw [smatOf_isInt dim smat hs, hint]
    exact ⟨_, (check_settings_cases inp).2.2.1 dim smat hdim hs hsi⟩

/-- Witness for C5 at a concrete float supercell vector. -/
theorem check_settings_malformed_supercell_errors_witness :
    ∃ e, check_settings wcFloatVec = .error e :=
  check_settings_malformed_supercell_errors wcFloatVec
    { isInt := false, shape := [3], data := [2, 2, 2] } rfl rfl

/-! ### Lookups in the normalized settings dict -/

/-- The `supercell_matrix` entry of the matrix-assignment stage. -/
theorem dictGet_settingsWithMats_sc (inp : WcInputs) (smat : NpArray) :
    dictGet (settingsWithMats inp smat) "supercell_matrix" = some (.arr smat) := by
  unfold settingsWithMats
  rw [dictGet_dictSet_ne _ _ _ _ (by decide), dictGet_dictSet_self]

/-- The `primitive_matrix` entry of the matrix-assignment stage. -/
theorem dictGet_settingsWithMats_pm (inp : WcInputs) (smat : NpArray) :
    dictGet (settingsWithMats inp smat) "primitive_matrix" =
      some (.arr (astypeFloat (pmatOf inp))) := by
  unfold settingsWithMats
  rw [dictGet_dictSet_self]

/-- Other keys pass through the matrix-assignment stage unchanged. -/
theorem dictGet_settingsWithMats_other (inp : WcInputs) (smat : NpArray) (k : String)
    (h1 : k ≠ "supercell_matrix") (h2 : k ≠ "primitive_matrix") :
    dictGet (settingsWithMats inp smat) k = dictGet (inp.phonon_settings.getD []) k := by
  unfold settingsWithMats
  rw [dictGet_dictSet_ne _ _ _ _ h2, dictGet_dictSet_ne _ _ _ _ h1]

/-- Keys other than `mesh` pass through the mesh-default stage unchanged. -/
theorem dictGet_settingsWithMesh_ne (inp : WcInputs) (smat : NpArray) (k : String)
    (h : k ≠ "mesh") :
    dictGet (settingsWithMesh inp smat) k = dictGet (settingsWithMats inp smat) k := by
  unfold settingsWithMesh
  by_cases hm : (dictGet (settingsWithMats inp smat) "mesh").isSome
  · rw [if_pos hm]
  · rw [if_neg hm, dictGet_dictSet_ne _ _ _ _ h]

/-- When the user supplied no `mesh`, the default `[20, 20, 20]` is set. -/
theorem dictGet_settingsWithMesh_default (inp : WcInputs) (smat : NpArray)
    (h : dictGet (inp.phonon_settings.getD []) "mesh" = none) :
    dictGet (settingsWithMesh inp smat) "mesh" = some (.intList [20, 20, 20]) := by
  have h2 : dictGet (settingsWithMats inp smat) "mesh" = none := by
    rw [dictGet_settingsWithMats_other inp smat "mesh" (by decide) (by decide), h]
  unfold settingsWithMesh
  rw [h2, if_neg (by simp)]
  exact dictGet_dictSet_self _ _ _

/-- Keys other than `distance` and `symmetry_tolerance` pass through the
final two assignments of `normalizedSettings` unchanged. -/
theorem dictGet_normalizedSettings_other (inp : WcInputs) (smat : NpArray) (k : String)
    (h1 : k ≠ "distance") (h2 : k ≠ "symmetry_tolerance") :
    dictGet (normalizedSettings inp smat) k = dictGet (settingsWithMesh inp smat) k := by
  unfold normalizedSettings
  rw [dictGet_dictSet_ne _ _ _ _ h2, dictGet_dictSet_ne _ _ _ _ h1]

/-- C8: when `check_settings` completes, the stored settings have the
supercell matrix normalized (a 3-number vector becomes its 3×3 diagonal
matrix, a matrix with other than 3 entries — in particular 3×3 — is kept
as is), `primitive_matrix` defaults to the 3×3 identity when absent from
`cell_matrices`, `mesh` defaults to `[20, 20, 20]` when absent from
`phonon_settings`, and the `distance` and `symmetry_tolerance` inputs are
stored as numbers. -/
theorem check_settings_normalization (inp : WcInputs) (d : SettingsDict)
    (hok : check_settings inp = .ok d) :
    (∀ dim, dictGet inp.cell_matrices "supercell_matrix" = some dim →
      (dim.shape = [3] → dim.data.length = 3 →
        dictGet d "supercell_matrix" =
          some (.arr { isInt := dim.isInt, shape := [3, 3], data := diagFlat dim.data })) ∧
      (dim.data.length ≠ 3 →
        dictGet d "supercell_matrix" = some (.arr dim))) ∧
    (dictGet inp.cell_matrices "primitive_matrix" = none →
      dictGet d "primitive_matrix" = some (.arr (npEye 3))) ∧
    (dictGet (inp.phonon_settings.getD []) "mesh" = none →
      dictGet d "mesh" = some (.intList [20, 20, 20])) ∧
    dictGet d "distance" = some (.num inp.distance) ∧
    dictGet d "symmetry_tolerance" = some (.num inp.symmetry_tolerance) := by
  obtain ⟨dim0, smat, hdim0, hs, hi, hrem, rfl⟩ := check_settings_ok_inv inp d hok
  refine ⟨?_, ?_, ?_, ?_, ?_⟩
  · intro dim hdim
    rw [hdim0] at hdim
    cases hdim
    have hsc : dictGet (normalizedSettings inp smat) "supercell_matrix" = some (.arr smat) := by
      rw [dictGet_normalizedSettings_other _ _ _ (by decide) (by decide),
        dictGet_settingsWithMesh_ne _ _ _ (by decide), dictGet_settingsWithMats_sc]
    constructor
    · intro hshape hlen
      have hdiag : smatOf dim0 =
          .ok { isInt := dim0.isInt, shape := [3, 3], data := diagFlat dim0.data } := by
        unfold smatOf npDiag
        rw [if_pos hlen, hshape, hlen]
      have : smat = { isInt := dim0.isInt, shape := [3, 3], data := diagFlat dim0.data } := by
        have := hdiag.symm.trans hs
        exact (Except.ok.inj this).symm
      rw [hsc, this]
    · intro hlen
      have hkeep : smatOf dim0 = .ok dim0 := by
        unfold smatOf
        rw [if_neg hlen]
      have : smat = dim0 := by
        have := hkeep.symm.trans hs
        exact (Except.ok.inj this).symm
      rw [hsc, this]
  · intro hp
    have hpm : pmatOf inp = npEye 3 := by
      unfold pmatOf
      rw [hp]
    rw [dictGet_normalizedSettings_other _ _ _ (by decide) (by decide),
      dictGet_settingsWithMesh_ne _ _ _ (by decide), dictGet_settingsWithMats_pm, hpm]
    rfl
  · intro hm
    rw [dictGet_normalizedSettings_other _ _ _ (by decide) (by decide),
      dictGet_settingsWithMesh_default _ _ hm]
  · unfold normalizedSettings
    rw [dictGet_dictSet_ne _ _ _ _ (by decide), dictGet_dictSet_self]
  · unfold normalizedSettings
    rw [dictGet_dictSet_self]

/-- Witness for C8 at the benign input: 3-number integer supercell, no
primitive matrix, no user settings. -/
theorem check_settings_normalization_witness :
    check_settings wcBase = .ok (normalizedSettings wcBase wcBaseSmat) ∧
    dictGet (normalizedSettings wcBase wcBaseSmat) "supercell_matrix" =
      some (.arr wcBaseSmat) ∧
    dictGet (normalizedSettings wcBase wcBaseSmat) "primitive_matrix" =
      some (.arr (npEye 3)) ∧
    dictGet (normalizedSettings wcBase wcBaseSmat) "mesh" =
      some (.intList [20, 20, 20]) ∧
    dictGet (normalizedSettings wcBase wcBaseSmat) "distance" =
      some (.num wcBase.distance) ∧
    dictGet (normalizedSettings wcBase wcBaseSmat) "symmetry_tolerance" =
      some (.num wcBase.symmetry_tolerance) := by
  have hd : check_settings wcBase = .ok (normalizedSettings wcBase wcBaseSmat) := rfl
  have h := check_settings_normalization wcBase (normalizedSettings wcBase wcBaseSmat) hd
  refine ⟨hd, ?_, h.2.1 rfl, h.2.2.1 rfl, h.2.2.2⟩
  exact (h.1 { isInt := true, shape := [3], data := [2, 2, 2] } rfl).1 rfl rfl

/-! ### `create_force_sets`, `create_phonopy_builder`, `set_unitcell` -/

/-- All displacement forces are retrievable exactly when the collected
list is as long as the number of displacements. -/
theorem collectedForces_all_iff (ctx : ForceSetsCtx) :
    (collectedForces ctx).length = ctx.number_of_displacements ↔
      ∀ i < ctx.number_of_displacements, (finalForce (ctx.calcs i)).isSome = true := by
  unfold collectedForces
  constructor
  · intro h i hi
    have hall := List.filterMap_length_eq_length.mp
      (by rw [h, List.length_range])
    exact hall i (List.mem_range.mpr hi)
  · intro h
    rw [List.filterMap_length_eq_length.mpr
      (fun a ha => h a (List.mem_range.mp ha)), List.length_range]

/-- C6: `create_force_sets` raises a `RuntimeError` iff the number of
retrievable force arrays (calculations with an `output_forces` output
holding a `final` array) differs from the number of displacements — i.e.
iff some displacement's forces are missing; otherwise it builds the force
sets from exactly the collected forces, one per displacement. -/
theorem create_force_sets_spec (ctx : ForceSetsCtx) :
    ((∃ msg, create_force_sets ctx = .error (.runtimeError msg)) ↔
      ¬∀ i < ctx.number_of_displacements, (finalForce (ctx.calcs i)).isSome = true) ∧
    (∀ fs, create_force_sets ctx = .ok fs →
      fs.data_sets = ctx.data_sets ∧ fs.forces = collectedForces ctx ∧
      fs.forces.length = ctx.number_of_displacements) := by
  constructor
  · unfold create_force_sets
    by_cases h : (collectedForces ctx).length = ctx.number_of_displacements
    · rw [if_neg (not_not_intro h)]
      constructor
      · rintro ⟨msg, hmsg⟩
        exact absurd hmsg (by simp)
      · intro hn
        exact absurd ((collectedForces_all_iff ctx).mp h) hn
    · rw [if_pos h]
      constructor
      · intro _
        exact fun hall => h ((collectedForces_all_iff ctx).mpr hall)
      · intro _
        exact ⟨_, rfl⟩
  · intro fs hfs
    unfold create_force_sets at hfs
    by_cases h : (collectedForces ctx).length = ctx.number_of_displacements
    · rw [if_neg (not_not_intro h)] at hfs
      injection hfs with h'
      subst h'
      exact ⟨rfl, rfl, h⟩
    · rw [if_pos h] at hfs
      exact Except.noConfusion hfs

/-- Witness for C6 at a context where both displacement calculations
expose their `final` forces. -/
theorem create_force_sets_spec_witness :
    create_force_sets fsCtxOk =
      .ok { data_sets := fsCtxOk.data_sets, forces := collectedForces fsCtxOk } ∧
    (collectedForces fsCtxOk).length = fsCtxOk.number_of_displacements := by
  have hd : create_force_sets fsCtxOk =
      .ok { data_sets := fsCtxOk.data_sets, forces := collectedForces fsCtxOk } := rfl
  have h := (create_force_sets_spec fsCtxOk).2 _ hd
  exact ⟨hd, h.2.2⟩

/-- C7: `create_phonopy_builder` raises a `RuntimeError` iff the context
holds neither `force_sets` nor `force_constants`; otherwise the stored
builder carries the final structure, the phonon settings, the options, the
code string, the force constants (preferred) or force sets, the NAC data
and the band paths, each when present. -/
theorem create_phonopy_builder_spec (code_string : String) (options : OptionsData)
    (ctx : BuilderCtx) :
    ((∃ msg, create_phonopy_builder code_string options ctx =
        .error (.runtimeError msg)) ↔
      (ctx.force_sets = none ∧ ctx.force_constants = none)) ∧
    (∀ b, create_phonopy_builder code_string options ctx = .ok b →
      b.code_string = code_string ∧
      b.structure' = ctx.final_structure ∧
      b.parameters = ctx.phonon_settings ∧
      b.options = options ∧
      b.force_constants = ctx.force_constants ∧
      b.force_sets = (if ctx.force_constants.isSome then none else ctx.force_sets) ∧
      b.nac_data = ctx.nac_data ∧
      b.bands = ctx.band_paths) := by
  unfold create_phonopy_builder
  by_cases h : (ctx.force_sets.isNone && ctx.force_constants.isNone) = true
  · rw [if_pos h]
    simp only [Bool.and_eq_true, Option.isNone_iff_eq_none] at h
    constructor
    · exact ⟨fun _ => h, fun _ => ⟨_, rfl⟩⟩
    · intro b hb
      exact Except.noConfusion hb
  · rw [if_neg h]
    constructor
    · constructor
      · rintro ⟨msg, hmsg⟩
        exact absurd hmsg (by simp)
      · rintro ⟨h1, h2⟩
        exact absurd (by simp [h1, h2]) h
    · intro b hb
      injection hb with h'
      subst h'
      exact ⟨rfl, rfl, rfl, rfl, rfl, rfl, rfl, rfl⟩

/-- Witness for C7 at a context holding force sets but no force
constants. -/
theorem create_phonopy_builder_spec_witness :
    builderOk.force_sets =
      (if builderCtxOk.force_constants.isSome then none else builderCtxOk.force_sets) ∧
    builderOk.parameters = builderCtxOk.phonon_settings ∧
    builderOk.bands = builderCtxOk.band_paths := by
  have h := (create_phonopy_builder_spec "phonopy@localhost" ⟨9⟩ builderCtxOk).2
    builderOk rfl
  exact ⟨h.2.2.2.2.2.1, h.2.2.1, h.2.2.2.2.2.2.2⟩

/-- C9: when no optimization ran (`optimized` absent from the context),
`set_unitcell` takes the input structure as the final structure and emits
no output; the `optimized_data` output is emitted exactly when the
optimization step ran. -/
theorem set_unitcell_spec (s : PhStructure) (optimized : Option OptimizedOut) :
    (optimized = none →
      (set_unitcell s optimized).1 = s ∧ (set_unitcell s optimized).2 = []) ∧
    (set_unitcell s optimized).2.map Prod.fst =
      (if optimized.isSome then ["optimized_data"] else []) := by
  cases optimized <;> simp [set_unitcell]

/-- Witness for C9 with no `optimized` context entry. -/
theorem set_unitcell_spec_witness :
    (set_unitcell ⟨5⟩ none).1 = (⟨5⟩ : PhStructure) ∧
    (set_unitcell ⟨5⟩ none).2 = [] :=
  (set_unitcell_spec ⟨5⟩ none).1 rfl

end AiidaPhonopy
